import Mathlib

/-!
Verification development for the kiwi tree-walking interpreter
(src/kiwi/include/interpreter.h and src/include/interp_helper.h).

The value universe, the slice engine, frame teardown, identifier
resolution, the range literal, the try/catch/finally statement and the
list-lambda built-ins are embedded shallowly below; machine integers
(k_int, int64_t) are modelled as Int, the C++ narrowing casts to int are
taken as the identity (all inputs considered stay far below 2^31), and
std::unordered_map is modelled pointwise as a function into Option.
-/

namespace Kiwi

/-- Embeds the tagged value universe k_value (typing/value.h): Integer,
Boolean, String, List, Hash (insertion-ordered key/value pairs), Object
(kept abstract as its identifier), LambdaRef and ClassRef. The double
(Float) alternative is omitted: no claim below touches it. -/
inductive Value where
  | int : Int → Value
  | boolean : Bool → Value
  | str : String → Value
  | list : List Value → Value
  | hash : List (String × Value) → Value
  | object : String → Value
  | lambdaRef : String → Value
  | classRef : String → Value

/-- Embeds the KiwiError hierarchy (tracing/error.h, absent from src/ but
determined by its uses): every error carries the name of its class
(RangeError, IndexError, HashKeyError, ...) and a message. Subclass
identity is the errorType string. All of these are caught by
catch (const KiwiError and e). -/
structure KwError where
  errorType : String
  message : String

/-- Embeds SliceIndex (objects/sliceindex.h): isSlice distinguishes a
slice from a single-index access; the three bounds are Values that must
hold k_int. -/
structure SliceIndex where
  isSlice : Bool
  indexOrStart : Value
  stopIndex : Value
  stepValue : Value

/-- elements[i] for an index the source has bounds-checked: out-of-range
reads (undefined behavior in C++) default to integer 0. -/
def getElemOr (l : List Value) (i : Int) : Value :=
  (l.get? i.toNat).getD (Value.int 0)

/-- elements[i] = v for the guarded write in the step-not-1 loop of
updateListSlice; a write out of range (unreachable under the loop's
guard) leaves the list unchanged. -/
def setElem (l : List Value) (i : Int) (v : Value) : List Value :=
  if 0 ≤ i ∧ i < (l.length : Int) then l.set i.toNat v else l

/-- std::copy of rhs onto elements starting at position i, as in the
step == 1, start < stop branch of updateListSlice: the list keeps its
length and positions i, i+1, ... receive the rhs elements. In C++ a copy
running past the end of the vector is undefined behavior; this model
truncates the write at the end instead. -/
def listOverwrite (l : List Value) (i : Nat) (r : List Value) : List Value :=
  l.take i ++ r.take (l.length - i) ++ l.drop (i + r.length)

/-- The step-not-1 assignment loop of InterpHelper::updateListSlice
(src/include/interp_helper.h lines 237-246):
for (int i = start; i != stop and rhsIndex < rhsSize; i += step) with the
in-bounds guard (step > 0 and i < listSize) or (step < 0 and i >= 0),
else break. The recursion is on the remaining rhs elements, which the
loop consumes one per iteration. For step == 0 the guard is false and
the loop breaks on its first iteration. -/
def sliceAssignLoop (listSize step stop : Int) :
    List Value → Int → List Value → List Value
  | l, _, [] => l
  | l, i, r :: rest =>
    if i = stop then l
    else if (step > 0 ∧ i < listSize) ∨ (step < 0 ∧ 0 ≤ i) then
      sliceAssignLoop listSize step stop (setElem l i r) (i + step) rest
    else l

/-- Embeds InterpHelper::updateListSlice (src/include/interp_helper.h
lines 185-247). Non-integer bounds fail IndexError; a non-slice insert
sets stop = start; negative start/stop gain listSize; start is clamped
below at 0 and stop above at listSize; step < 0 with stop == listSize
turns stop into -1. step == 1 with start >= stop erases [start, stop)
and inserts rhs at start (for start > stop the C++ erase is undefined
behavior; the claims stay inside start <= stop); step == 1 with
start < stop copies rhs over the elements in place; otherwise the
guarded loop assigns stepwise. -/
def updateListSlice (insertOp : Bool) (target : List Value)
    (slice : SliceIndex) (rhs : List Value) : Except KwError (List Value) :=
  match slice.indexOrStart with
  | Value.int start0 =>
    match slice.stopIndex with
    | Value.int stop0 =>
      match slice.stepValue with
      | Value.int step =>
        let stop1 := if !slice.isSlice && insertOp then start0 else stop0
        let listSize : Int := target.length
        let start2 := if start0 < 0 then start0 + listSize else start0
        let stop2 := if stop1 < 0 then stop1 + listSize else stop1
        let start3 := if start2 < 0 then 0 else start2
        let stop3 := if stop2 > listSize then listSize else stop2
        let stop4 := if step < 0 ∧ stop3 = listSize then -1 else stop3
        if step = 1 then
          if start3 ≥ stop4 then
            let erased := target.take start3.toNat ++ target.drop stop4.toNat
            Except.ok (erased.take start3.toNat ++ rhs ++ erased.drop start3.toNat)
          else
            Except.ok (listOverwrite target start3.toNat rhs)
        else
          Except.ok (sliceAssignLoop listSize step stop4 target start3 rhs)
      | _ => Except.error ⟨"IndexError", "Step value must be an integer."⟩
    | _ => Except.error ⟨"IndexError", "Stop index must be an integer."⟩
  | _ => Except.error ⟨"IndexError", "Start index must be an integer."⟩

/-- The forward read loop of InterpHelper::interpretListSlice
(src/include/interp_helper.h lines 322-330):
for (int i = start; i < stop; i += step) with break at i >= listSize;
each surviving iteration pushes elements[i]. The C++ loop does not
terminate when step == 0 (i never changes while i < stop holds), so the
model carries fuel: none means the loop has not finished within the
given fuel, for any fuel. -/
def readSliceFwdLoop (l : List Value) (stop step : Int) :
    Int → Nat → Option (List Value)
  | _, 0 => none
  | i, Nat.succ fuel =>
    if i < stop then
      if i ≥ (l.length : Int) then some []
      else
        match readSliceFwdLoop l stop step (i + step) fuel with
        | some rest => some (getElemOr l i :: rest)
        | none => none
    else some []

/-- The reverse read loop of InterpHelper::interpretListSlice
(src/include/interp_helper.h lines 313-321):
for (int i = init; i >= stop; i += step) with break when i < 0 or
i >= listSize; each surviving iteration pushes elements[i]. Fueled like
the forward loop (the source reaches it only with step < 0, where it
terminates, but the model stays total). -/
def readSliceRevLoop (l : List Value) (stop step : Int) :
    Int → Nat → Option (List Value)
  | _, 0 => none
  | i, Nat.succ fuel =>
    if i ≥ stop then
      if i < 0 ∨ i ≥ (l.length : Int) then some []
      else
        match readSliceRevLoop l stop step (i + step) fuel with
        | some rest => some (getElemOr l i :: rest)
        | none => none
    else some []

/-- Embeds InterpHelper::interpretListSlice (src/include/interp_helper.h
lines 285-351). Slice case: non-integer bounds fail IndexError; negative
start becomes max(start + listSize, 0); stop becomes stop + listSize when
negative, else min(stop, listSize); step < 0 with stop == listSize turns
stop into -1; then the reverse loop (start == 0 starts at listSize - 1)
or the forward loop collects the slice. Single-index case: a negative
index gains listSize; an index still out of range fails RangeError; else
the element is returned. The Option layer is the fuel of the two loops:
none means the C++ loop has not terminated within the fuel. -/
def interpretListSlice (fuel : Nat) (slice : SliceIndex) (l : List Value) :
    Option (Except KwError Value) :=
  if slice.isSlice then
    match slice.indexOrStart with
    | Value.int start0 =>
      match slice.stopIndex with
      | Value.int stop0 =>
        match slice.stepValue with
        | Value.int step =>
          let listSize : Int := l.length
          let start1 := if start0 < 0 then max (start0 + listSize) 0 else start0
          let stop1 := if stop0 < 0 then stop0 + listSize else min stop0 listSize
          let stop2 := if step < 0 ∧ stop1 = listSize then -1 else stop1
          if step < 0 then
            (readSliceRevLoop l stop2 step
              (if start1 = 0 then listSize - 1 else start1) fuel).map
              (fun es => Except.ok (Value.list es))
          else
            (readSliceFwdLoop l stop2 step start1 fuel).map
              (fun es => Except.ok (Value.list es))
        | _ => some (Except.error ⟨"IndexError", "Step value must be an integer."⟩)
      | _ => some (Except.error ⟨"IndexError", "Stop index must be an integer."⟩)
    | _ => some (Except.error ⟨"IndexError", "Start index must be an integer."⟩)
  else
    match slice.indexOrStart with
    | Value.int index0 =>
      let listSize : Int := l.length
      let index := if index0 < 0 then index0 + listSize else index0
      if index < 0 ∨ index ≥ listSize then
        some (Except.error ⟨"RangeError", "List index out of range."⟩)
      else
        some (Except.ok (getElemOr l index))
    | _ => some (Except.error ⟨"IndexError", "Index value must be an integer."⟩)

/-- Embeds the list branch of KInterpreter::visit(const IndexingNode*)
(interpreter.h lines 983-992): the index is taken as an integer (the
get_integer conversion is assumed successful, as the claims only supply
integers); index < 0 or index >= size fails RangeError with no negative
normalization, else elements.at(index) is returned. -/
def indexListAst (l : List Value) (index : Int) : Except KwError Value :=
  if index < 0 ∨ index ≥ (l.length : Int) then
    Except.error ⟨"RangeError", "The index was outside the bounds of the list."⟩
  else
    Except.ok (getElemOr l index)

/-- Hash::hasKey over the insertion-ordered key/value pairs. -/
def hashHasKey (kvp : List (String × Value)) (k : String) : Bool :=
  (kvp.lookup k).isSome

/-- Hash::get over the insertion-ordered key/value pairs; the claims
only read keys that hasKey has confirmed. -/
def hashGet (kvp : List (String × Value)) (k : String) : Value :=
  (kvp.lookup k).getD (Value.int 0)

/-- Discriminates the k_hash alternative of k_value. -/
def isHash : Value → Bool
  | Value.hash _ => true
  | _ => false

/-- Embeds KInterpreter::visit(const MemberAccessNode*) applied to the
already-evaluated receiver (interpreter.h lines 442-456): a hash without
the member key fails HashKeyError, a hash with it yields the value, and
every non-hash receiver yields integer 0. -/
def memberAccess (object : Value) (memberName : String) :
    Except KwError Value :=
  match object with
  | Value.hash kvp =>
    if hashHasKey kvp memberName then Except.ok (hashGet kvp memberName)
    else Except.error ⟨"HashKeyError", memberName⟩
  | _ => Except.ok (Value.int 0)

/-- The body of the range loop of KInterpreter::visit(const
RangeLiteralNode*): for (i = start; i != stop; i += step) pushes i each
iteration. With step = plus or minus 1 pointing from start to stop the
C++ loop runs exactly the distance from start to stop many iterations;
the model recurses on that count. -/
def rangeLoop : Nat → Int → Int → List Int
  | 0, _, _ => []
  | Nat.succ n, i, step => i :: rangeLoop n (i + step) step

/-- Embeds KInterpreter::visit(const RangeLiteralNode*) (interpreter.h
lines 860-885) applied to the evaluated endpoints: non-integer endpoints
fail RangeError; step is -1 when stop < start else 1; the loop pushes
start, start + step, ... while i != stop, and stop is pushed last. -/
def visitRange (startValue stopValue : Value) : Except KwError Value :=
  match startValue, stopValue with
  | Value.int start, Value.int stop =>
    let step : Int := if stop < start then -1 else 1
    Except.ok (Value.list
      ((rangeLoop (stop - start).natAbs start step).map Value.int
        ++ [Value.int stop]))
  | _, _ => Except.error ⟨"RangeError", "Range value must be an integer."⟩

/-- Embeds KInterpreter::doSliceAssignment (interpreter.h lines 458-471):
when both the sliced object and the new value are lists it delegates to
updateListSlice with insertOp = false and yields the updated list; any
other pairing returns the sliced object unchanged. -/
def doSliceAssignment (slicedObj : Value) (slice : SliceIndex)
    (newValue : Value) : Except KwError Value :=
  match slicedObj, newValue with
  | Value.list target, Value.list rhs =>
    (updateListSlice false target slice rhs).map Value.list
  | _, _ => Except.ok slicedObj

/-- Embeds CallStackFrame (stackframe.h): the local binding map
(std::unordered_map modelled pointwise), the return-value slot, the flag
bitset (each flag its own Bool) and the object context, kept as the
InObject flag plus the instance-variable map of the context object. -/
structure Frame where
  vars : String → Option Value
  returnValue : Value
  returnFlag : Bool
  subFrame : Bool
  inTry : Bool
  inObject : Bool
  instanceVars : String → Option Value

/-- A fresh frame: empty locals, return value integer 0, no flags. -/
def Frame.empty : Frame :=
  ⟨fun _ => none, Value.int 0, false, false, false, false, fun _ => none⟩

/-- Embeds InterpHelper::updateVariablesInCallerFrame together with
shouldUpdateFrameVariables (src/include/interp_helper.h lines 131-145):
every binding of the dropped frame whose name the caller also binds is
copied over the caller's; all other caller bindings stay, and names the
caller does not bind are not added. -/
def updateVariablesInCallerFrame (vars : String → Option Value)
    (caller : Frame) : Frame :=
  { caller with
    vars := fun n =>
      match vars n with
      | some v => if (caller.vars n).isSome then some v else caller.vars n
      | none => caller.vars n }

/-- Embeds KInterpreter::dropFrame (interpreter.h lines 273-288) on the
two frames it touches: the popped top frame's return value moves into
the caller's return-value slot; if the caller has the SubFrame flag its
ReturnFlag is set (setFlag leaves an already-set flag set); then the
shared locals are copied back via updateVariablesInCallerFrame. -/
def dropFrame (top caller : Frame) : Frame :=
  let c1 := { caller with returnValue := top.returnValue }
  let c2 := if c1.subFrame then { c1 with returnFlag := true } else c1
  updateVariablesInCallerFrame top.vars c2

/-- The process-wide registries the identifier resolution consults
(interpreter.h lines 18-24): class names, lambda identifiers and the
identifier-to-lambda indirection table. -/
structure Registries where
  classes : List String
  lambdas : List String
  lambdaTable : String → Option String

/-- Registries with nothing registered. -/
def Registries.empty : Registries := ⟨[], [], fun _ => none⟩

/-- Embeds KInterpreter::visit(const IdentifierNode*) (interpreter.h
lines 823-844). In object context a name whose first character is the
at-sign reads the context object's instanceVariables (operator[] on a
missing key default-constructs k_value, which is integer 0). Otherwise:
frame local, then class registry (ClassRef), then lambda registry
(LambdaRef), then the indirection table (LambdaRef of the mapped id when
that id is registered), else integer 0. Identifier names are non-empty
by the grammar, so name.at(0) is modelled by String.front. -/
def visitIdentifier (regs : Registries) (fr : Frame) (name : String) : Value :=
  if fr.inObject ∧ name.front = '@' then
    (fr.instanceVars name).getD (Value.int 0)
  else if (fr.vars name).isSome then
    (fr.vars name).getD (Value.int 0)
  else if regs.classes.contains name then
    Value.classRef name
  else if regs.lambdas.contains name then
    Value.lambdaRef name
  else
    match regs.lambdaTable name with
    | some mapped =>
      if regs.lambdas.contains mapped then Value.lambdaRef mapped
      else Value.int 0
    | none => Value.int 0

/-- Modelled from the spec: MathImpl.is_truthy (the math visitor facade,
math/functions.h, is absent from src/): non-zero numbers, non-empty
strings, lists and hashes, and true booleans are truthy; everything else
is falsy. -/
def isTruthy : Value → Bool
  | Value.int i => i ≠ 0
  | Value.boolean b => b
  | Value.str s => s ≠ ""
  | Value.list l => !l.isEmpty
  | Value.hash kvp => !kvp.isEmpty
  | _ => false

/-- The binary operators the claims exercise. -/
inductive BinOp where
  | add
  | sub
  | mul

/-- Modelled from the spec: MathImpl.do_binary_op (math/functions.h is
absent from src/), restricted to the integer arithmetic cases and string
concatenation by plus that the claims exercise; other operand pairings
fail as a typed error. -/
def doBinaryOp (op : BinOp) (a b : Value) : Except KwError Value :=
  match op, a, b with
  | BinOp.add, Value.int x, Value.int y => Except.ok (Value.int (x + y))
  | BinOp.sub, Value.int x, Value.int y => Except.ok (Value.int (x - y))
  | BinOp.mul, Value.int x, Value.int y => Except.ok (Value.int (x * y))
  | BinOp.add, Value.str s, Value.str t => Except.ok (Value.str (s ++ t))
  | _, _, _ =>
    Except.error ⟨"ConversionError", "Unsupported operand types."⟩

/-- Modelled from the spec: Serializer::serialize as the print statement
uses it (typing/serializer.h is absent from src/): strings print their
contents, integers their decimal digits, booleans true or false, lists
bracketed with comma-space separators as scenario S1 shows; the
remaining cases only name their alternative. -/
def serialize : Value → String
  | Value.int i => toString i
  | Value.boolean b => if b then "true" else "false"
  | Value.str s => s
  | Value.list l => "[" ++ String.intercalate ", "
      (l.attach.map fun x => serialize x.1) ++ "]"
  | Value.hash _ => "\x7bhash\x7d"
  | Value.object name => name
  | Value.lambdaRef name => name
  | Value.classRef name => name
decreasing_by
  have h := List.sizeOf_lt_of_mem x.2
  simp only [Value.list.sizeOf_spec]
  omega

/-- The expression fragment of the AST the claims exercise: literals,
identifiers and binary arithmetic (LiteralNode, IdentifierNode,
BinaryOperationNode of parsing/ast.h). -/
inductive Expr where
  | lit : Value → Expr
  | ident : String → Expr
  | binop : BinOp → Expr → Expr → Expr

/-- The statement fragment of the AST the claims exercise: expression
statements, PrintNode (expression, printNewline), ThrowNode (optional
error value, optional condition) and TryNode (try body, catch body,
optional error-type and error-message identifiers, finally body). -/
inductive Stmt where
  | exprStmt : Expr → Stmt
  | printStmt : Expr → Bool → Stmt
  | throwStmt : Option Expr → Option Expr → Stmt
  | tryStmt : List Stmt → List Stmt → Option String → Option String →
      List Stmt → Stmt

/-- The interpreter state a statement can observe and change: the top
frame and the standard-output lines written so far. -/
structure EState where
  frame : Frame
  output : List String

/-- The initial state: an empty frame, nothing printed. -/
def EState.init : EState := ⟨Frame.empty, []⟩

/-- frame->variables[name] = value. -/
def setFrameVar (st : EState) (n : String) (v : Value) : EState :=
  { st with frame := { st.frame with
      vars := fun m => if m = n then some v else st.frame.vars m } }

/-- frame->variables.erase(name). -/
def eraseFrameVar (st : EState) (n : String) : EState :=
  { st with frame := { st.frame with
      vars := fun m => if m = n then none else st.frame.vars m } }

/-- Expression evaluation mirroring the visit handlers: literals yield
their value, identifiers resolve through visitIdentifier, and binary
operations evaluate both operands and apply the math facade (the
short-circuit cases And/Or are not among the modelled operators). -/
def evalExpr (regs : Registries) (fr : Frame) : Expr → Except KwError Value
  | Expr.lit v => Except.ok v
  | Expr.ident n => Except.ok (visitIdentifier regs fr n)
  | Expr.binop op a b =>
    match evalExpr regs fr a with
    | Except.error e => Except.error e
    | Except.ok va =>
      match evalExpr regs fr b with
      | Except.error e => Except.error e
      | Except.ok vb => doBinaryOp op va vb

/-- Catch-clause entry of visit(const TryNode*) (interpreter.h lines
1320-1330): when the error-type and error-message identifiers are
declared they are bound in the current frame to e.getError() and
e.getMessage(). -/
def bindCatchVars (st : EState) (et em : Option String) (e : KwError) :
    EState :=
  let st1 := match et with
    | some n => setFrameVar st n (Value.str e.errorType)
    | none => st
  match em with
  | some n => setFrameVar st1 n (Value.str e.message)
  | none => st1

/-- Catch-clause exit of visit(const TryNode*) (interpreter.h lines
1336-1342): the two bound identifiers are erased again. -/
def eraseCatchVars (st : EState) (et em : Option String) : EState :=
  let st1 := match et with
    | some n => eraseFrameVar st n
    | none => st
  match em with
  | some n => eraseFrameVar st1 n
  | none => st1

mutual

/-- Statement execution mirroring KInterpreter::interpret for the
modelled node kinds. Expression statements evaluate their expression.
PrintNode (interpreter.h lines 909-918) serializes the value onto
standard output. ThrowNode (lines 347-375) reads error type and message
from a hash value with error/message keys or a string value and throws
unless a declared condition is falsy. TryNode (lines 1311-1353) runs the
try body; a KiwiError with a non-empty catch body binds the error
identifiers, runs the catch body and erases them — an error raised by
the catch body itself propagates as a C++ exception, skipping both the
erase and the finally statements; an error with an empty catch body is
discarded; the finally body runs on every non-exceptional path, and the
statement yields integer 0. -/
def execStmt (regs : Registries) : EState → Stmt → EState × Except KwError Value
  | st, Stmt.exprStmt e => (st, evalExpr regs st.frame e)
  | st, Stmt.printStmt e _ =>
    match evalExpr regs st.frame e with
    | Except.ok v =>
      ({ st with output := st.output ++ [serialize v] }, Except.ok (Value.int 0))
    | Except.error err => (st, Except.error err)
  | st, Stmt.throwStmt errorValue condition =>
    let payload : Except KwError (String × String) :=
      match errorValue with
      | none => Except.ok ("KiwiError", "")
      | some ev =>
        match evalExpr regs st.frame ev with
        | Except.error err => Except.error err
        | Except.ok v =>
          match v with
          | Value.hash kvp =>
            let errorType :=
              if hashHasKey kvp "error" then
                match hashGet kvp "error" with
                | Value.str s => s
                | _ => "KiwiError"
              else "KiwiError"
            let errorMessage :=
              if hashHasKey kvp "message" then
                match hashGet kvp "message" with
                | Value.str s => s
                | _ => ""
              else ""
            Except.ok (errorType, errorMessage)
          | Value.str s => Except.ok ("KiwiError", s)
          | _ => Except.ok ("KiwiError", "")
    match payload with
    | Except.error err => (st, Except.error err)
    | Except.ok (errorType, errorMessage) =>
      match condition with
      | none => (st, Except.error ⟨errorType, errorMessage⟩)
      | some c =>
        match evalExpr regs st.frame c with
        | Except.error err => (st, Except.error err)
        | Except.ok cv =>
          if isTruthy cv then (st, Except.error ⟨errorType, errorMessage⟩)
          else (st, Except.ok (Value.int 0))
  | st, Stmt.tryStmt tryBody catchBody errorType errorMessage finallyBody =>
    let afterCatch : EState × Option KwError :=
      match execStmtList regs st tryBody with
      | (st1, none) => (st1, none)
      | (st1, some e) =>
        if catchBody.isEmpty then (st1, none)
        else
          let st2 := bindCatchVars st1 errorType errorMessage e
          match execStmtList regs st2 catchBody with
          | (st3, none) => (eraseCatchVars st3 errorType errorMessage, none)
          | (st3, some e2) => (st3, some e2)
    match afterCatch with
    | (stA, none) =>
      match execStmtList regs stA finallyBody with
      | (stF, none) => (stF, Except.ok (Value.int 0))
      | (stF, some ef) => (stF, Except.error ef)
    | (stA, some e2) => (stA, Except.error e2)

/-- Sequential execution of a statement body as the try/catch/finally
bodies run it: statements execute in order, an error stops the body and
is reported. -/
def execStmtList (regs : Registries) : EState → List Stmt → EState × Option KwError
  | st, [] => (st, none)
  | st, s :: rest =>
    match execStmt regs st s with
    | (st1, Except.ok _) => execStmtList regs st1 rest
    | (st1, Except.error e) => (st1, some e)

end

/-- The inner statement loop of KInterpreter::lambdaMap (interpreter.h
lines 2172-2174): for each statement of the lambda body the interpreted
result is appended to the collected list — one appended element per
statement, not one per list element. An error propagates as in C++. -/
def mapStmtsLoop (regs : Registries) :
    EState → List Stmt → List Value → EState × Except KwError (List Value)
  | st, [], acc => (st, Except.ok acc)
  | st, s :: rest, acc =>
    match execStmt regs st s with
    | (st1, Except.ok v) => mapStmtsLoop regs st1 rest (acc ++ [v])
    | (st1, Except.error e) => (st1, Except.error e)

/-- The outer element loop of KInterpreter::lambdaMap (interpreter.h
lines 2169-2175): for each element the map variable is rebound in the
caller's frame and the whole body is interpreted, appending each
statement's result. -/
def mapElemsLoop (regs : Registries) (mapVariable : String)
    (body : List Stmt) :
    EState → List Value → List Value → EState × Except KwError (List Value)
  | st, [], acc => (st, Except.ok acc)
  | st, x :: xs, acc =>
    let st1 := setFrameVar st mapVariable x
    match mapStmtsLoop regs st1 body acc with
    | (st2, Except.ok acc1) => mapElemsLoop regs mapVariable body st2 xs acc1
    | (st2, Except.error e) => (st2, Except.error e)

/-- Embeds KInterpreter::lambdaMap (interpreter.h lines 2146-2180): a
lambda with no parameters returns the input list itself; otherwise the
first parameter becomes the map variable, initially bound to integer 0
in the caller's frame (no new frame is pushed), the two loops above
collect the results, the map variable is erased on normal completion
(an error skips the erase, as the C++ exception unwinds past it) and
the collected list is returned. -/
def lambdaMap (regs : Registries) (params : List String) (body : List Stmt)
    (st : EState) (l : List Value) : EState × Except KwError Value :=
  match params with
  | [] => (st, Except.ok (Value.list l))
  | p :: _ =>
    let st1 := setFrameVar st p (Value.int 0)
    match mapElemsLoop regs p body st1 l [] with
    | (st2, Except.ok acc) => (eraseFrameVar st2 p, Except.ok (Value.list acc))
    | (st2, Except.error e) => (st2, Except.error e)

/-- Scenario S4 of the spec as the parser delivers it: try throwing the
string oops, catch into identifiers e and m printing m, finally printing
done. -/
def scenarioS4 : Stmt :=
  Stmt.tryStmt
    [Stmt.throwStmt (some (Expr.lit (Value.str "oops"))) none]
    [Stmt.printStmt (Expr.ident "m") true]
    (some "e") (some "m")
    [Stmt.printStmt (Expr.lit (Value.str "done")) true]

/-- A try statement whose catch body itself throws while a finally body
wants to print done — the probe for the catch-raises completion path. -/
def scenarioCatchThrow : Stmt :=
  Stmt.tryStmt
    [Stmt.throwStmt (some (Expr.lit (Value.str "boom"))) none]
    [Stmt.throwStmt (some (Expr.lit (Value.str "again"))) none]
    none none
    [Stmt.printStmt (Expr.lit (Value.str "done")) true]

/-- The single-statement body of the scenario S3 lambda (x) -> x*2. -/
def scenarioS3Body : List Stmt :=
  [Stmt.exprStmt (Expr.binop BinOp.mul (Expr.ident "x") (Expr.lit (Value.int 2)))]

/-- A two-statement lambda body, the probe for how many elements map
collects per input element. -/
def twoStmtBody : List Stmt :=
  [Stmt.exprStmt (Expr.lit (Value.int 1)), Stmt.exprStmt (Expr.lit (Value.int 2))]

/-- Claim C6: dropFrame moves the popped frame's return value into the
caller's return-value slot; it sets the caller's Return flag exactly when
the caller has the SubFrame flag (otherwise the flag is left unchanged);
every name bound in both the popped frame's locals and the caller's
locals is overwritten with the popped frame's value, caller bindings
whose names are absent from the popped frame are unchanged, and names
the caller does not bind stay unbound. -/
theorem dropFrame_spec (top caller : Frame) :
    (dropFrame top caller).returnValue = top.returnValue ∧
    (dropFrame top caller).returnFlag = (caller.subFrame || caller.returnFlag) ∧
    (caller.subFrame = true → (dropFrame top caller).returnFlag = true) ∧
    (caller.subFrame = false →
      (dropFrame top caller).returnFlag = caller.returnFlag) ∧
    (∀ n v, top.vars n = some v → (caller.vars n).isSome = true →
      (dropFrame top caller).vars n = some v) ∧
    (∀ n, top.vars n = none → (dropFrame top caller).vars n = caller.vars n) ∧
    (∀ n, caller.vars n = none → (dropFrame top caller).vars n = none) := by
  refine ⟨?_, ?_, ?_, ?_, ?_, ?_, ?_⟩
  · cases hsf : caller.subFrame <;>
      simp [dropFrame, updateVariablesInCallerFrame, hsf]
  · cases hsf : caller.subFrame <;>
      simp [dropFrame, updateVariablesInCallerFrame, hsf]
  · intro hsf
    simp [dropFrame, updateVariablesInCallerFrame, hsf]
  · intro hsf
    simp [dropFrame, updateVariablesInCallerFrame, hsf]
  · intro n v htop hc
    cases hsf : caller.subFrame <;>
      simp [dropFrame, updateVariablesInCallerFrame, hsf, htop, hc]
  · intro n htop
    cases hsf : caller.subFrame <;>
      simp [dropFrame, updateVariablesInCallerFrame, hsf, htop]
  · intro n hc
    cases hsf : caller.subFrame <;> cases htop : top.vars n <;>
      simp [dropFrame, updateVariablesInCallerFrame, hsf, htop, hc]

/-- Witness for C6 at a concrete pair of frames: the popped frame binds
x to 1 and z to 3, the caller binds x to 2 and y to 9 with the SubFrame
flag clear; after dropFrame the caller holds x = 1, keeps y = 9, still
does not bind z, and its Return flag stays clear. -/
theorem dropFrame_spec_witness :
    (dropFrame
        { Frame.empty with vars := fun n =>
            if n = "x" then some (Value.int 1)
            else if n = "z" then some (Value.int 3) else none }
        { Frame.empty with vars := fun n =>
            if n = "x" then some (Value.int 2)
            else if n = "y" then some (Value.int 9) else none }).vars "x" =
      some (Value.int 1) := by
  have h := dropFrame_spec
    { Frame.empty with vars := fun n =>
        if n = "x" then some (Value.int 1)
        else if n = "z" then some (Value.int 3) else none }
    { Frame.empty with vars := fun n =>
        if n = "x" then some (Value.int 2)
        else if n = "y" then some (Value.int 9) else none }
  exact h.2.2.2.2.1 "x" (Value.int 1) (by simp) (by simp)

/-- Claim C10: member access on any value that is not a hash yields
integer 0 and raises nothing; on a hash it yields the member's value
when the key exists and fails HashKeyError otherwise. -/
theorem memberAccess_spec (v : Value) (name : String) :
    (isHash v = false → memberAccess v name = Except.ok (Value.int 0)) ∧
    (∀ kvp, v = Value.hash kvp →
      (hashHasKey kvp name = true →
        memberAccess v name = Except.ok (hashGet kvp name)) ∧
      (hashHasKey kvp name = false →
        memberAccess v name = Except.error ⟨"HashKeyError", name⟩)) := by
  constructor
  · intro hv
    cases v <;> simp_all [isHash, memberAccess]
  · intro kvp hv
    subst hv
    constructor <;> intro hk <;> simp [memberAccess, hk]

/-- Witness for C10: an integer receiver yields 0; the hash with the
single pair a maps to 5 yields 5 for member a and HashKeyError for
member b. -/
theorem memberAccess_spec_witness :
    memberAccess (Value.int 7) "a" = Except.ok (Value.int 0) ∧
    memberAccess (Value.hash [("a", Value.int 5)]) "a" =
      Except.ok (Value.int 5) ∧
    memberAccess (Value.hash [("a", Value.int 5)]) "b" =
      Except.error ⟨"HashKeyError", "b"⟩ := by
  refine ⟨(memberAccess_spec (Value.int 7) "a").1 (by simp [isHash]), ?_, ?_⟩
  · have h := ((memberAccess_spec (Value.hash [("a", Value.int 5)]) "a").2
      [("a", Value.int 5)] rfl).1 (by simp [hashHasKey])
    simpa [hashGet] using h
  · exact ((memberAccess_spec (Value.hash [("a", Value.int 5)]) "b").2
      [("a", Value.int 5)] rfl).2 (by simp [hashHasKey])

/-- Claim C9: a KiwiError raised in the try body of a try node with an
empty catch body is silently discarded — it is not re-raised, the
finally body still runs (from the state the try body reached), and the
try statement completes with integer 0. -/
theorem tryEmptyCatch_spec (regs : Registries) (st st1 st2 : EState)
    (tb fb : List Stmt) (et em : Option String) (e : KwError)
    (h1 : execStmtList regs st tb = (st1, some e))
    (h2 : execStmtList regs st1 fb = (st2, none)) :
    execStmt regs st (Stmt.tryStmt tb [] et em fb) =
      (st2, Except.ok (Value.int 0)) := by
  simp [execStmt, h1, h2]

/-- Witness for C9: try throwing the string boom with no catch clause
and a finally that prints fin — the program completes with 0 and the
only output is fin. -/
theorem tryEmptyCatch_spec_witness :
    execStmt Registries.empty EState.init
      (Stmt.tryStmt [Stmt.throwStmt (some (Expr.lit (Value.str "boom"))) none]
        [] none none [Stmt.printStmt (Expr.lit (Value.str "fin")) true]) =
      (⟨Frame.empty, ["fin"]⟩, Except.ok (Value.int 0)) := by
  exact tryEmptyCatch_spec Registries.empty EState.init EState.init
    ⟨Frame.empty, ["fin"]⟩
    [Stmt.throwStmt (some (Expr.lit (Value.str "boom"))) none]
    [Stmt.printStmt (Expr.lit (Value.str "fin")) true]
    none none ⟨"KiwiError", "boom"⟩
    (by simp [execStmtList, execStmt, evalExpr, EState.init])
    (by simp [execStmtList, execStmt, evalExpr, serialize, EState.init])

/-- The range loop produces exactly its iteration count many elements. -/
theorem rangeLoop_length (n : Nat) (i step : Int) :
    (rangeLoop n i step).length = n := by
  induction n generalizing i with
  | zero => rfl
  | succ n ih => simp [rangeLoop, ih]

/-- Element j of the range loop is the start plus j steps. -/
theorem rangeLoop_get (n : Nat) (i step : Int) (j : Nat) (hj : j < n) :
    (rangeLoop n i step).get? j = some (i + j * step) := by
  induction n generalizing i j with
  | zero => omega
  | succ n ih =>
    cases j with
    | zero => simp [rangeLoop]
    | succ j =>
      simp only [rangeLoop, List.get?_cons_succ]
      rw [ih (i + step) j (by omega)]
      congr 1
      push_cast
      ring

/-- Claim C8: the range literal a..b yields a list of length
natAbs (b - a) + 1 whose first element is a, whose last element is b,
and whose element at position j is a + j * step with step 1 when b is
not below a and step -1 when it is — so consecutive elements differ by
plus or minus 1 accordingly, and a..a is the one-element list [a]. -/
theorem visitRange_spec (a b : Int) :
    ∃ l : List Value,
      visitRange (Value.int a) (Value.int b) = Except.ok (Value.list l) ∧
      l.length = (b - a).natAbs + 1 ∧
      l.head? = some (Value.int a) ∧
      l.getLast? = some (Value.int b) ∧
      (∀ j : Nat, j < l.length →
        l.get? j = some (Value.int (a + j * (if b < a then -1 else 1)))) := by
  refine ⟨(rangeLoop (b - a).natAbs a (if b < a then -1 else 1)).map Value.int
      ++ [Value.int b], by simp [visitRange], ?_, ?_, ?_, ?_⟩
  · simp [rangeLoop_length]
  · rcases hn : (b - a).natAbs with _ | n
    · have hab : a = b := by omega
      subst hab
      simp [rangeLoop]
    · simp [rangeLoop]
  · rw [List.getLast?_concat]
  · intro j hj
    simp only [List.length_append, List.length_map, rangeLoop_length,
      List.length_singleton] at hj
    rcases lt_or_ge j (b - a).natAbs with hlt | hge
    · rw [List.get?_append (by simp [rangeLoop_length, hlt])]
      rw [List.get?_map, rangeLoop_get _ _ _ _ hlt]
      rfl
    · have hj' : j = (b - a).natAbs := by omega
      subst hj'
      rw [List.get?_append_right (by simp [rangeLoop_length])]
      simp only [List.length_map, rangeLoop_length, Nat.sub_self,
        List.get?_cons_zero, Option.some.injEq]
      congr 1
      split <;> omega

/-- Witness for C8 at the range 3..5: the produced list is [3, 4, 5],
whose length is natAbs (5 - 3) + 1. -/
theorem visitRange_spec_witness :
    ([Value.int 3, Value.int 4, Value.int 5] : List Value).length =
      ((5 : Int) - 3).natAbs + 1 := by
  obtain ⟨l, heq, hlen, -, -, -⟩ := visitRange_spec 3 5
  have h2 : visitRange (Value.int 3) (Value.int 5) =
      Except.ok (Value.list [Value.int 3, Value.int 4, Value.int 5]) := rfl
  rw [heq] at h2
  have h3 : l = [Value.int 3, Value.int 4, Value.int 5] := by
    injection h2 with h4
    injection h4
  rw [← h3]
  exact hlen

/-- Counterexample to claim C2: reading index -1 on the three-element
list [10, 20, 30] through the AST indexing operation fails RangeError
instead of returning the element at position len - 1 = 2, which is 30 —
visit(const IndexingNode*) rejects every negative index without
normalizing it. -/
theorem negativeIndex_counterexample :
    indexListAst [Value.int 10, Value.int 20, Value.int 30] (-1) =
      Except.error
        ⟨"RangeError", "The index was outside the bounds of the list."⟩ ∧
    indexListAst [Value.int 10, Value.int 20, Value.int 30] (-1) ≠
      Except.ok (Value.int 30) := by
  refine ⟨rfl, by simp [indexListAst]⟩

/-- Claim C2 (amended): through the AST indexing operation
(visit(const IndexingNode*)) every negative index fails RangeError, for
any list; the claimed normalization lives only in the single-index path
of InterpHelper::interpretListSlice, where index -k with 1 <= k <= len
reads the element at position len - k and k > len fails RangeError. -/
theorem negativeIndex_amended :
    (∀ (l : List Value) (i : Int), i < 0 →
      indexListAst l i =
        Except.error
          ⟨"RangeError", "The index was outside the bounds of the list."⟩) ∧
    (∀ (fuel : Nat) (l : List Value) (k : Nat), 1 ≤ k → k ≤ l.length →
      ∃ v, l.get? (l.length - k) = some v ∧
        interpretListSlice fuel
          ⟨false, Value.int (-(k : Int)), Value.int 0, Value.int 1⟩ l =
          some (Except.ok v)) ∧
    (∀ (fuel : Nat) (l : List Value) (k : Nat), l.length < k →
      interpretListSlice fuel
        ⟨false, Value.int (-(k : Int)), Value.int 0, Value.int 1⟩ l =
        some (Except.error ⟨"RangeError", "List index out of range."⟩)) := by
  refine ⟨?_, ?_, ?_⟩
  · intro l i hi
    simp [indexListAst, hi]
  · intro fuel l k hk1 hk2
    have hlt : l.length - k < l.length := by omega
    refine ⟨l.get ⟨l.length - k, hlt⟩, List.get?_eq_get hlt, ?_⟩
    have hneg : (-(k : Int)) < 0 := by omega
    have hnotrange : ¬((-(k : Int)) + (l.length : Int) < 0 ∨
        (-(k : Int)) + (l.length : Int) ≥ (l.length : Int)) := by omega
    simp only [interpretListSlice, Bool.false_eq_true, if_false, hneg, if_pos,
      if_neg hnotrange]
    have htn : ((-(k : Int)) + (l.length : Int)).toNat = l.length - k := by
      omega
    simp only [getElemOr, htn]
    simp [List.getElem?_eq_getElem hlt]
  · intro fuel l k hk
    have hneg : (-(k : Int)) < 0 := by omega
    have hrange : ((-(k : Int)) + (l.length : Int) < 0 ∨
        (-(k : Int)) + (l.length : Int) ≥ (l.length : Int)) := by omega
    simp only [interpretListSlice, Bool.false_eq_true, if_false, hneg, if_pos,
      if_neg, hrange]

/-- Witness for C2 (amended) on [10, 20, 30] with index -1 through the
helper's single-index path: the element at position 3 - 1 is returned. -/
theorem negativeIndex_amended_witness :
    interpretListSlice 0 ⟨false, Value.int (-1), Value.int 0, Value.int 1⟩
      [Value.int 10, Value.int 20, Value.int 30] =
      some (Except.ok (Value.int 30)) := by
  obtain ⟨v, hv, hres⟩ := negativeIndex_amended.2.1 0
    [Value.int 10, Value.int 20, Value.int 30] 1 (by omega) (by simp)
  have hv30 : v = Value.int 30 := by
    simpa using hv.symm
  rw [hv30] at hres
  simpa using hres

/-- Counterexample to claim C7: in object context the identifier at-x
resolves to the context object's instance variable (7) even though the
top frame binds the same name locally (to 42) — the claimed
frame-local-first order does not hold for at-prefixed names. -/
theorem identifierResolution_counterexample :
    visitIdentifier Registries.empty
      { Frame.empty with
        inObject := true,
        vars := fun n => if n = "@x" then some (Value.int 42) else none,
        instanceVars := fun n => if n = "@x" then some (Value.int 7) else none }
      "@x" = Value.int 7 ∧
    ({ Frame.empty with
        inObject := true,
        vars := fun n => if n = "@x" then some (Value.int 42) else none,
        instanceVars :=
          fun n => if n = "@x" then some (Value.int 7) else none } :
        Frame).vars "@x" = some (Value.int 42) ∧
    Value.int 7 ≠ Value.int 42 := by
  refine ⟨rfl, rfl, by simp⟩

/-- Claim C7 (amended): an identifier whose first character is the
at-sign, evaluated in object context, reads the context object's
instance variable (integer 0 when absent) and skips all other lookups;
every other identifier resolves in the order frame local, class registry
(ClassRef), lambda registry (LambdaRef), lambda indirection table
(LambdaRef of the mapped id when that id is registered), and evaluates
to integer 0 when nothing resolves, raising no error. -/
theorem identifierResolution_amended (regs : Registries) (fr : Frame)
    (name : String) :
    (fr.inObject = true → name.front = '@' →
      visitIdentifier regs fr name = (fr.instanceVars name).getD (Value.int 0)) ∧
    (¬(fr.inObject = true ∧ name.front = '@') →
      (∀ v, fr.vars name = some v → visitIdentifier regs fr name = v) ∧
      (fr.vars name = none → regs.classes.contains name = true →
        visitIdentifier regs fr name = Value.classRef name) ∧
      (fr.vars name = none → regs.classes.contains name = false →
        regs.lambdas.contains name = true →
        visitIdentifier regs fr name = Value.lambdaRef name) ∧
      (∀ m, fr.vars name = none → regs.classes.contains name = false →
        regs.lambdas.contains name = false → regs.lambdaTable name = some m →
        regs.lambdas.contains m = true →
        visitIdentifier regs fr name = Value.lambdaRef m) ∧
      (∀ m, fr.vars name = none → regs.classes.contains name = false →
        regs.lambdas.contains name = false → regs.lambdaTable name = some m →
        regs.lambdas.contains m = false →
        visitIdentifier regs fr name = Value.int 0) ∧
      (fr.vars name = none → regs.classes.contains name = false →
        regs.lambdas.contains name = false → regs.lambdaTable name = none →
        visitIdentifier regs fr name = Value.int 0)) := by
  constructor
  · intro hobj hat
    simp [visitIdentifier, hobj, hat]
  · intro hnot
    refine ⟨?_, ?_, ?_, ?_, ?_, ?_⟩
    · intro v hv
      simp [visitIdentifier, hnot, hv]
    · intro hv hc
      have hc' : name ∈ regs.classes := by simpa using hc
      simp [visitIdentifier, hnot, hv, hc']
    · intro hv hc hl
      have hc' : name ∉ regs.classes := by simpa using hc
      have hl' : name ∈ regs.lambdas := by simpa using hl
      simp [visitIdentifier, hnot, hv, hc', hl']
    · intro m hv hc hl ht hm
      have hc' : name ∉ regs.classes := by simpa using hc
      have hl' : name ∉ regs.lambdas := by simpa using hl
      have hm' : m ∈ regs.lambdas := by simpa using hm
      simp [visitIdentifier, hnot, hv, hc', hl', ht, hm']
    · intro m hv hc hl ht hm
      have hc' : name ∉ regs.classes := by simpa using hc
      have hl' : name ∉ regs.lambdas := by simpa using hl
      have hm' : m ∉ regs.lambdas := by simpa using hm
      simp [visitIdentifier, hnot, hv, hc', hl', ht, hm']
    · intro hv hc hl ht
      have hc' : name ∉ regs.classes := by simpa using hc
      have hl' : name ∉ regs.lambdas := by simpa using hl
      simp [visitIdentifier, hnot, hv, hc', hl', ht]

/-- Witness for C7 (amended): with empty registries and a frame binding
y to 5, the identifier y resolves to the frame local, and an unbound
identifier z evaluates to integer 0. -/
theorem identifierResolution_amended_witness :
    visitIdentifier Registries.empty
      { Frame.empty with
        vars := fun n => if n = "y" then some (Value.int 5) else none } "y" =
      Value.int 5 ∧
    visitIdentifier Registries.empty Frame.empty "z" = Value.int 0 := by
  constructor
  · exact ((identifierResolution_amended Registries.empty
      { Frame.empty with
        vars := fun n => if n = "y" then some (Value.int 5) else none } "y").2
      (by simp [Frame.empty])).1 (Value.int 5) (by simp)
  · exact ((identifierResolution_amended Registries.empty Frame.empty "z").2
      (by simp [Frame.empty])).2.2.2.2.2 (by simp [Frame.empty])
      (by simp [Registries.empty]) (by simp [Registries.empty])
      (by simp [Registries.empty])

/-- Counterexample to claim C5: in a try statement whose catch body
itself throws, the failure is re-raised but the finally body is NOT
executed — the C++ exception unwinds past the finally lines. Running
try (throw boom) catch (throw again) finally (println done) leaves the
output empty (done is never printed) and propagates the second error. -/
theorem tryFinally_counterexample :
    (execStmt Registries.empty EState.init scenarioCatchThrow).1.output = [] ∧
    (execStmt Registries.empty EState.init scenarioCatchThrow).2 =
      Except.error ⟨"KiwiError", "again"⟩ := by
  constructor <;>
    simp [scenarioCatchThrow, execStmt, execStmtList, evalExpr, EState.init,
      bindCatchVars]

/-- Claim C5 (amended): the finally body executes after the try body
when no error occurs and after the catch body when the catch body
completes normally; when the catch body itself raises, the failure is
re-raised for an outer handler and the finally body is NOT executed. In
scenario S4 (whose catch body completes normally) the output is oops
followed by done. -/
theorem tryFinally_amended (regs : Registries) (tb cb fb : List Stmt)
    (et em : Option String) :
    (∀ st st1 st2, execStmtList regs st tb = (st1, none) →
      execStmtList regs st1 fb = (st2, none) →
      execStmt regs st (Stmt.tryStmt tb cb et em fb) =
        (st2, Except.ok (Value.int 0))) ∧
    (∀ st st1 st3 st4 e, cb ≠ [] →
      execStmtList regs st tb = (st1, some e) →
      execStmtList regs (bindCatchVars st1 et em e) cb = (st3, none) →
      execStmtList regs (eraseCatchVars st3 et em) fb = (st4, none) →
      execStmt regs st (Stmt.tryStmt tb cb et em fb) =
        (st4, Except.ok (Value.int 0))) ∧
    (∀ st st1 st3 e e2, cb ≠ [] →
      execStmtList regs st tb = (st1, some e) →
      execStmtList regs (bindCatchVars st1 et em e) cb = (st3, some e2) →
      execStmt regs st (Stmt.tryStmt tb cb et em fb) =
        (st3, Except.error e2)) ∧
    ((execStmt Registries.empty EState.init scenarioS4).1.output =
      ["oops", "done"] ∧
     (execStmt Registries.empty EState.init scenarioS4).2 =
      Except.ok (Value.int 0)) := by
  refine ⟨?_, ?_, ?_, ?_⟩
  · intro st st1 st2 h1 h2
    simp [execStmt, h1, h2]
  · intro st st1 st3 st4 e hcb h1 h2 h3
    have hcb' : cb.isEmpty = false := by
      simpa [List.isEmpty_iff] using hcb
    simp [execStmt, h1, h2, h3, hcb']
  · intro st st1 st3 e e2 hcb h1 h2
    have hcb' : cb.isEmpty = false := by
      simpa [List.isEmpty_iff] using hcb
    simp [execStmt, h1, h2, hcb']
  · constructor <;>
      simp [scenarioS4, execStmt, execStmtList, evalExpr, EState.init,
        bindCatchVars, eraseCatchVars, setFrameVar, eraseFrameVar,
        visitIdentifier, Frame.empty, serialize, Registries.empty]

/-- Witness for C5 (amended) on the empty try statement: with empty try
and finally bodies the statement completes with integer 0 from the
unchanged state. -/
theorem tryFinally_amended_witness :
    execStmt Registries.empty EState.init
      (Stmt.tryStmt [] [] none none []) = (EState.init, Except.ok (Value.int 0)) := by
  exact (tryFinally_amended Registries.empty [] [] [] none none).1
    EState.init EState.init EState.init (by simp [execStmtList])
    (by simp [execStmtList])

/-- The in-place overwrite of the step-1 branch never changes the length
of the list (writes past the end are truncated by the model; the source
makes them undefined behavior). -/
theorem listOverwrite_length (l r : List Value) (i : Nat) (h : i ≤ l.length) :
    (listOverwrite l i r).length = l.length := by
  simp [listOverwrite]
  omega

/-- When the overwrite fits inside the list it replaces exactly the
positions i, ..., i + length r - 1. -/
theorem listOverwrite_eq (l r : List Value) (i : Nat)
    (h : i + r.length ≤ l.length) :
    listOverwrite l i r = l.take i ++ r ++ l.drop (i + r.length) := by
  have hr : r.length ≤ l.length - i := by omega
  simp [listOverwrite, List.take_all_of_le hr]

/-- Counterexample to claim C1 (scenario S1): x = [1,2,3,4,5];
x[1:4] = [9,9] leaves the list as [1, 9, 9, 4, 5] of length 5 — the
step-1 branch with start < stop copies the right-hand side over the
elements in place and removes nothing — while the claim demands length
5 - (4-1) + 2 = 4 and the list [1, 9, 9, 5]. -/
theorem sliceAssign_counterexample :
    doSliceAssignment
      (Value.list
        [Value.int 1, Value.int 2, Value.int 3, Value.int 4, Value.int 5])
      ⟨true, Value.int 1, Value.int 4, Value.int 1⟩
      (Value.list [Value.int 9, Value.int 9]) =
      Except.ok (Value.list
        [Value.int 1, Value.int 9, Value.int 9, Value.int 4, Value.int 5]) ∧
    ([Value.int 1, Value.int 9, Value.int 9, Value.int 4, Value.int 5] :
      List Value).length ≠
      ([Value.int 1, Value.int 9, Value.int 9, Value.int 5] :
        List Value).length := by
  exact ⟨rfl, by decide⟩

set_option maxHeartbeats 1000000 in
/-- Claim C1 (amended): slice assignment L[s:e:1] = R with
0 <= s <= e <= len(L) inserts R at position s when s = e (a pure
insertion, length len(L) + len(R), matching the claimed formula), but
when s < e it overwrites in place: the length stays len(L), R's elements
replace positions s, ..., s + len(R) - 1 (when they fit; going past the
end is undefined behavior in the source) and nothing is erased. -/
theorem sliceAssignStep1_amended (L R : List Value) (s e : Nat)
    (hse : s ≤ e) (hel : e ≤ L.length) :
    (s = e →
      updateListSlice false L ⟨true, Value.int s, Value.int e, Value.int 1⟩ R =
        Except.ok (L.take s ++ R ++ L.drop s) ∧
      (L.take s ++ R ++ L.drop s).length = L.length + R.length) ∧
    (s < e →
      updateListSlice false L ⟨true, Value.int s, Value.int e, Value.int 1⟩ R =
        Except.ok (listOverwrite L s R) ∧
      (listOverwrite L s R).length = L.length ∧
      (s + R.length ≤ L.length →
        listOverwrite L s R = L.take s ++ R ++ L.drop (s + R.length))) := by
  constructor
  · intro hse2
    subst hse2
    constructor
    · simp only [updateListSlice]
      split_ifs <;>
        first
          | (exfalso; omega)
          | (exfalso; simp_all; done)
          | (simp [Int.toNat_natCast, List.take_append_drop]; done)
    · simp only [List.length_append, List.length_take, List.length_drop]
      omega
  · intro hlt
    refine ⟨?_, listOverwrite_length L R s (by omega),
      fun h => listOverwrite_eq L R s h⟩
    simp only [updateListSlice]
    split_ifs <;>
      first
        | (exfalso; omega)
        | (exfalso; simp_all; done)
        | (simp [Int.toNat_natCast]; done)

/-- Witness for C1 (amended) on scenario S1's input: the overwrite case
applied to [1,2,3,4,5] with s = 1, e = 4, R = [9,9] yields
[1, 9, 9, 4, 5]. -/
theorem sliceAssignStep1_amended_witness :
    updateListSlice false
      [Value.int 1, Value.int 2, Value.int 3, Value.int 4, Value.int 5]
      ⟨true, Value.int 1, Value.int 4, Value.int 1⟩
      [Value.int 9, Value.int 9] =
      Except.ok
        [Value.int 1, Value.int 9, Value.int 9, Value.int 4, Value.int 5] := by
  obtain ⟨heq, -, hov⟩ := (sliceAssignStep1_amended
    [Value.int 1, Value.int 2, Value.int 3, Value.int 4, Value.int 5]
    [Value.int 9, Value.int 9] 1 4 (by omega) (by simp)).2 (by omega)
  have heq' : updateListSlice false
      [Value.int 1, Value.int 2, Value.int 3, Value.int 4, Value.int 5]
      ⟨true, Value.int 1, Value.int 4, Value.int 1⟩
      [Value.int 9, Value.int 9] =
      Except.ok (listOverwrite
        [Value.int 1, Value.int 2, Value.int 3, Value.int 4, Value.int 5] 1
        [Value.int 9, Value.int 9]) := heq
  rw [heq', hov (by simp)]
  rfl

/-- One pass of the lambda body appends exactly one collected element
per statement of the body when it completes without error. -/
theorem mapStmtsLoop_ok_length (regs : Registries) (body : List Stmt) :
    ∀ st acc st2 res, mapStmtsLoop regs st body acc = (st2, Except.ok res) →
      res.length = acc.length + body.length := by
  induction body with
  | nil =>
    intro st acc st2 res h
    simp only [mapStmtsLoop, Prod.mk.injEq, Except.ok.injEq] at h
    simp [← h.2]
  | cons s rest ih =>
    intro st acc st2 res h
    simp only [mapStmtsLoop] at h
    rcases hx : execStmt regs st s with ⟨st1, r⟩
    rw [hx] at h
    cases r with
    | ok v =>
      have := ih st1 (acc ++ [v]) st2 res h
      simp only [List.length_append, List.length_singleton] at this
      simp [this, List.length_cons]
      omega
    | error e => simp at h

/-- Over the elements, map collects body-length many results per element
when everything completes without error. -/
theorem mapElemsLoop_ok_length (regs : Registries) (p : String)
    (body : List Stmt) :
    ∀ xs st acc st2 res,
      mapElemsLoop regs p body st xs acc = (st2, Except.ok res) →
      res.length = acc.length + xs.length * body.length := by
  intro xs
  induction xs with
  | nil =>
    intro st acc st2 res h
    simp only [mapElemsLoop, Prod.mk.injEq, Except.ok.injEq] at h
    simp [← h.2]
  | cons x rest ih =>
    intro st acc st2 res h
    simp only [mapElemsLoop] at h
    rcases hx : mapStmtsLoop regs (setFrameVar st p x) body acc with ⟨stm, rm⟩
    rw [hx] at h
    cases rm with
    | ok acc1 =>
      have h1 := mapStmtsLoop_ok_length regs body (setFrameVar st p x) acc stm
        acc1 hx
      have h2 := ih stm acc1 st2 res h
      simp [h1] at h2
      simp [h2, List.length_cons]
      ring
    | error e => simp at h

/-- Counterexample to claim C3: mapping a lambda whose body holds the
two statements 1 and 2 over the one-element list [5] collects [1, 2] —
two elements for one input element, because lambdaMap appends every
statement's result, not only the final statement's. -/
theorem lambdaMap_counterexample :
    (lambdaMap Registries.empty ["x"] twoStmtBody EState.init
      [Value.int 5]).2 = Except.ok (Value.list [Value.int 1, Value.int 2]) ∧
    ([Value.int 1, Value.int 2] : List Value).length ≠
      ([Value.int 5] : List Value).length := by
  constructor
  · simp [twoStmtBody, lambdaMap, mapElemsLoop, mapStmtsLoop, execStmt,
      evalExpr, setFrameVar, eraseFrameVar, EState.init]
  · decide

/-- Claim C3 (amended): the map list built-in collects one element per
(input element, body statement) pair — when it completes without error
the result holds len(list) * len(body) elements, each statement's value
for each element; for a single-statement lambda this is exactly one
element per input, and mapping (x) -> x*2 over [1,2,3] yields
[2, 4, 6]. -/
theorem lambdaMap_amended :
    (∀ (regs : Registries) (p : String) (ps : List String) (body : List Stmt)
      (st : EState) (l : List Value) (st2 : EState) (res : List Value),
      lambdaMap regs (p :: ps) body st l = (st2, Except.ok (Value.list res)) →
      res.length = l.length * body.length) ∧
    (lambdaMap Registries.empty ["x"] scenarioS3Body EState.init
      [Value.int 1, Value.int 2, Value.int 3]).2 =
      Except.ok (Value.list [Value.int 2, Value.int 4, Value.int 6]) := by
  constructor
  · intro regs p ps body st l st2 res h
    simp only [lambdaMap] at h
    rcases hx : mapElemsLoop regs p body (setFrameVar st p (Value.int 0)) l []
      with ⟨stm, rm⟩
    rw [hx] at h
    cases rm with
    | ok acc =>
      simp only [Prod.mk.injEq, Except.ok.injEq, Value.list.injEq] at h
      have := mapElemsLoop_ok_length regs p body l
        (setFrameVar st p (Value.int 0)) [] stm acc hx
      simp only [List.length_nil, Nat.zero_add] at this
      rw [← h.2]
      exact this
    | error e => simp at h
  · simp [scenarioS3Body, lambdaMap, mapElemsLoop, mapStmtsLoop, execStmt,
      evalExpr, visitIdentifier, doBinaryOp, setFrameVar, eraseFrameVar,
      EState.init, Frame.empty, Registries.empty]

/-- Witness for C3 (amended): the scenario S3 run collects three
elements — one per input element — for the single-statement body. -/
theorem lambdaMap_amended_witness :
    ([Value.int 2, Value.int 4, Value.int 6] : List Value).length =
      ([Value.int 1, Value.int 2, Value.int 3] : List Value).length *
        scenarioS3Body.length := by
  have h2 := lambdaMap_amended.2
  have hpair : lambdaMap Registries.empty ["x"] scenarioS3Body EState.init
      [Value.int 1, Value.int 2, Value.int 3] =
      ((lambdaMap Registries.empty ["x"] scenarioS3Body EState.init
        [Value.int 1, Value.int 2, Value.int 3]).1,
       Except.ok (Value.list [Value.int 2, Value.int 4, Value.int 6])) := by
    rw [← h2]
  exact lambdaMap_amended.1 Registries.empty "x" [] scenarioS3Body EState.init
    [Value.int 1, Value.int 2, Value.int 3] _ _ hpair

/-- With step 0 the guarded assignment loop breaks on its first
iteration without writing anything: the target list is unchanged. -/
theorem sliceAssignLoop_step0 (listSize stop : Int) (l : List Value)
    (i : Int) (r : List Value) :
    sliceAssignLoop listSize 0 stop l i r = l := by
  cases r with
  | nil => rfl
  | cons a rest => simp [sliceAssignLoop]

/-- With step 0 the forward read loop never advances: as long as the
position stays below both stop and the list length, no amount of fuel
makes it terminate. -/
theorem readSliceFwdLoop_step0 (l : List Value) (stop : Int) (i : Int)
    (h1 : i < stop) (h2 : i < (l.length : Int)) :
    ∀ fuel, readSliceFwdLoop l stop 0 i fuel = none := by
  intro fuel
  induction fuel with
  | zero => rfl
  | succ n ih =>
    simp only [readSliceFwdLoop, if_pos h1]
    rw [if_neg (by omega), Int.add_zero, ih]

/-- Claim C4 probed on the code: a slice with step 0 does NOT fail
IndexError. Reading [1,2,3][0:3:0] never terminates (the C++ loop runs
forever, for every fuel the model reports non-termination), and slice
assignment with step 0 silently leaves any target list unchanged and
reports success. -/
theorem step0Slice_spec :
    (∀ fuel : Nat, interpretListSlice fuel
      ⟨true, Value.int 0, Value.int 3, Value.int 0⟩
      [Value.int 1, Value.int 2, Value.int 3] = none) ∧
    (∀ (insertOp isSlice : Bool) (L R : List Value) (s e : Int),
      updateListSlice insertOp L ⟨isSlice, Value.int s, Value.int e,
        Value.int 0⟩ R = Except.ok L) := by
  constructor
  · intro fuel
    simp [interpretListSlice,
      readSliceFwdLoop_step0 [Value.int 1, Value.int 2, Value.int 3] 3 0
        (by omega) (by simp) fuel]
  · intro insertOp isSlice L R s e
    simp [updateListSlice, sliceAssignLoop_step0]

end Kiwi
